import Mathlib

/-!
Shallow embedding of the stamp-collection application's model and controller
logic (`model.py`, `controller.py`) and proofs of the specification's claims
about it.

Python strings are modelled as `List Char` (the relevant code only handles
ASCII data); Python `None`-able results are `Option`; disk and JSON outcomes
are passed in explicitly so that `load`/`save` are pure functions of the
store state and the outcome of the I/O they perform.
-/

set_option autoImplicit false

namespace ScolCat

/-- Python strings modelled as lists of characters. -/
abbrev Str := List Char

/-- The ASCII whitespace characters recognised by Python's `str.strip()` and
the regex class `\s` (the data handled by the program is ASCII). -/
def isPyWS (c : Char) : Bool :=
  c = ' ' ∨ c = '\t' ∨ c = '\n' ∨ c = '\r' ∨ c = '\x0b' ∨ c = '\x0c'

/-- Python `str.lstrip()` on ASCII data: drop leading whitespace. -/
def lstrip (s : Str) : Str := s.dropWhile isPyWS

/-- Python `str.rstrip()` on ASCII data: drop trailing whitespace. -/
def rstrip (s : Str) : Str := (s.reverse.dropWhile isPyWS).reverse

/-- Python `str.strip()` on ASCII data. -/
def pyStrip (s : Str) : Str := rstrip (lstrip s)

/-- Python `str.lower()` restricted to ASCII letters: code points 65–90
(`'A'`–`'Z'`) shift by 32, everything else is unchanged. -/
def toLowerCh (c : Char) : Char :=
  if 65 ≤ c.toNat ∧ c.toNat ≤ 90 then Char.ofNat (c.toNat + 32) else c

/-- Python `str.lower()` on ASCII data. -/
def pyLower (s : Str) : Str := s.map toLowerCh

/-- ASCII decimal digit test (regex `\d` on the ASCII data handled here). -/
def isDigitCh (c : Char) : Bool := '0' ≤ c ∧ c ≤ '9'

/-- Numeric value of an ASCII digit character. -/
def digitVal (c : Char) : Nat := c.toNat - '0'.toNat

/-- Match regex `\d{4}` at the start of the string: exactly four digit
characters, returning their decimal value and the rest of the string. -/
def take4Digits (s : Str) : Option (Nat × Str) :=
  match s with
  | a :: b :: c :: d :: rest =>
    if isDigitCh a ∧ isDigitCh b ∧ isDigitCh c ∧ isDigitCh d then
      some (digitVal a * 1000 + digitVal b * 100 + digitVal c * 10 + digitVal d, rest)
    else none
  | _ => none

/-- Case-insensitive literal match at the start of the string: if `s` starts
with `pat` up to ASCII case, return the remainder.  This is regex matching of
the literal `pat` with `re.IGNORECASE` at the current position. -/
def ciStarts (pat : Str) (s : Str) : Option Str :=
  match pat, s with
  | [], rest => some rest
  | _ :: _, [] => none
  | p :: ps, c :: cs => if toLowerCh c = toLowerCh p then ciStarts ps cs else none

/-- Embeds `re.sub(r'^(circa|c\.|ca\.)\s*', '', s, flags=re.IGNORECASE)`: the
alternation is tried left to right at the start of the string; on a match the
prefix and the following whitespace run are removed, otherwise `s` is
returned unchanged.  (Anchored at `^` without `re.MULTILINE`, so at most one
substitution happens, at position 0.) -/
def stripCirca (s : Str) : Str :=
  match ciStarts ['c', 'i', 'r', 'c', 'a'] s with
  | some rest => rest.dropWhile isPyWS
  | none =>
    match ciStarts ['c', '.'] s with
    | some rest => rest.dropWhile isPyWS
    | none =>
      match ciStarts ['c', 'a', '.'] s with
      | some rest => rest.dropWhile isPyWS
      | none => s

/-- Regex `^(\d{4})\s*-\s*(\d{4})$` applied to an already-stripped string
(so `$` is the end of the string): four digits, optional whitespace, a
hyphen, optional whitespace, four digits, end.  The quantifiers involved
never need backtracking, so the match is this deterministic scan. -/
def matchRangeDash (s : Str) : Option (Nat × Nat) :=
  match take4Digits s with
  | none => none
  | some (a, rest) =>
    match rest.dropWhile isPyWS with
    | '-' :: rest2 =>
      match take4Digits (rest2.dropWhile isPyWS) with
      | some (b, []) => some (a, b)
      | _ => none
    | _ => none

/-- Regex `^(\d{4})\s+to\s+(\d{4})$` with `re.IGNORECASE`, applied to an
already-stripped string: four digits, at least one whitespace, the word
"to" up to case, at least one whitespace, four digits, end. -/
def matchRangeTo (s : Str) : Option (Nat × Nat) :=
  match take4Digits s with
  | none => none
  | some (a, rest) =>
    match rest with
    | w :: rest1 =>
      if isPyWS w then
        match rest1.dropWhile isPyWS with
        | t :: o :: rest2 =>
          if (t = 't' ∨ t = 'T') ∧ (o = 'o' ∨ o = 'O') then
            match rest2 with
            | w2 :: rest3 =>
              if isPyWS w2 then
                match take4Digits (rest3.dropWhile isPyWS) with
                | some (b, []) => some (a, b)
                | _ => none
              else none
            | [] => none
          else none
        | _ => none
      else none
    | [] => none

/-- Regex `^(\d{4})$` applied to an already-stripped string: exactly four
digits and nothing else. -/
def matchSingleYear (s : Str) : Option Nat :=
  match take4Digits s with
  | some (n, []) => some n
  | _ => none

/-- Embeds `model.parse_date_field`: strip the string (empty → no value), strip a
leading case-insensitive circa prefix, then try the dash range, the "to"
range and the single bare year in that order; a range yields the truncating
average `(start + end) // 2` (the years are non-negative, so Python's floor
division agrees with `Nat` division).  Unparseable input yields no value. -/
def parse_date_field (s : Str) : Option Nat :=
  if s = [] then none
  else
    let s1 := pyStrip s
    if s1 = [] then none
    else
      let s2 := pyStrip (stripCirca s1)
      match matchRangeDash s2 with
      | some (a, b) => some ((a + b) / 2)
      | none =>
        match matchRangeTo s2 with
        | some (a, b) => some ((a + b) / 2)
        | none =>
          match matchSingleYear s2 with
          | some n => some n
          | none => none

/-- Embeds `model.get_decade_from_year`: `(year // 10) * 10`.  All call sites pass
the non-negative result of `parse_date_field`, where Python's floor division
agrees with `Nat` division. -/
def get_decade_from_year (year : Nat) : Nat := (year / 10) * 10

/-- Python `int(s)` on a string: strip whitespace, an optional sign, then a
non-empty digit run in which single underscores may appear between digits
(accumulated left to right).  Any other shape raises `ValueError`, modelled
as `none`. -/
def pyIntDigits (s : Str) (acc : Nat) : Option Nat :=
  match s with
  | [] => some acc
  | c :: rest =>
    if isDigitCh c then pyIntDigits rest (acc * 10 + digitVal c)
    else if c = '_' then
      match rest with
      | d :: rest2 => if isDigitCh d then pyIntDigits rest2 (acc * 10 + digitVal d) else none
      | [] => none
    else none

/-- Python `int(s)` for a decimal string literal (see `pyIntDigits`). -/
def pyInt (s : Str) : Option Int :=
  match pyStrip s with
  | '+' :: d :: rest =>
    if isDigitCh d then (pyIntDigits rest (digitVal d)).map (fun n => (n : Int)) else none
  | '-' :: d :: rest =>
    if isDigitCh d then (pyIntDigits rest (digitVal d)).map (fun n => -(n : Int)) else none
  | d :: rest =>
    if isDigitCh d then (pyIntDigits rest (digitVal d)).map (fun n => (n : Int)) else none
  | [] => none

/-- Embeds `model.parse_decade_string`: the literal `"Unknown"` yields no value; a
string ending in `'s'` has the `'s'` stripped and the remainder passed to
`int`; otherwise the whole string is passed to `int`; a `ValueError` from
`int` yields no value. -/
def parse_decade_string (s : Str) : Option Int :=
  if s = ['U', 'n', 'k', 'n', 'o', 'w', 'n'] then none
  else if s.getLast? = some 's' then pyInt s.dropLast
  else pyInt s

/-- Embeds `model.Stamp`: the nine text fields of a catalogue entry.  The Python
dataclass defaults every field to the empty string except `unique_id`, whose
default is a freshly generated UUID; freshness is passed in explicitly where
it matters (`from_dict`). -/
structure Stamp where
  unique_id : Str := []
  name : Str := []
  country : Str := []
  image_path : Str := []
  dates : Str := []
  comments : Str := []
  catalogue_ids : Str := []
  collection_number : Str := []
  keywords : Str := []
deriving DecidableEq, Repr

/-- The JSON key `"unique_id"`. -/
def kUniqueId : Str := ['u','n','i','q','u','e','_','i','d']
/-- The JSON key `"name"`. -/
def kName : Str := ['n','a','m','e']
/-- The JSON key `"country"`. -/
def kCountry : Str := ['c','o','u','n','t','r','y']
/-- The JSON key `"image_path"`. -/
def kImagePath : Str := ['i','m','a','g','e','_','p','a','t','h']
/-- The JSON key `"dates"`. -/
def kDates : Str := ['d','a','t','e','s']
/-- The JSON key `"comments"`. -/
def kComments : Str := ['c','o','m','m','e','n','t','s']
/-- The JSON key `"catalogue_ids"`. -/
def kCatalogueIds : Str := ['c','a','t','a','l','o','g','u','e','_','i','d','s']
/-- The JSON key `"collection_number"`. -/
def kCollectionNumber : Str := ['c','o','l','l','e','c','t','i','o','n','_','n','u','m','b','e','r']
/-- The JSON key `"keywords"`. -/
def kKeywords : Str := ['k','e','y','w','o','r','d','s']

/-- The nine field names of the `Stamp` dataclass, in declaration order. -/
def fieldNames : List Str :=
  [kUniqueId, kName, kCountry, kImagePath, kDates, kComments, kCatalogueIds,
   kCollectionNumber, kKeywords]

/-- A persisted record object: a JSON object whose values are strings,
modelled as an association list (JSON/Python dict keys are unique). -/
abbrev RecordDict := List (Str × Str)

/-- First-match lookup in a record object (dict keys are unique, so this is
Python dict lookup). -/
def lookupD : RecordDict → Str → Option Str
  | [], _ => none
  | (k, v) :: rest, key => if k = key then some v else lookupD rest key

/-- Embeds `Stamp.from_dict`, i.e. `cls(**data)`: fails (Python `TypeError` from an
unexpected keyword argument) when the dict holds a key that is not a field
name; otherwise each missing field takes its dataclass default, `unique_id`
defaulting to the fresh UUID `freshId`. -/
def from_dict (freshId : Str) (d : RecordDict) : Option Stamp :=
  if ∀ kv ∈ d, kv.1 ∈ fieldNames then
    some
      { unique_id := (lookupD d kUniqueId).getD freshId
        name := (lookupD d kName).getD []
        country := (lookupD d kCountry).getD []
        image_path := (lookupD d kImagePath).getD []
        dates := (lookupD d kDates).getD []
        comments := (lookupD d kComments).getD []
        catalogue_ids := (lookupD d kCatalogueIds).getD []
        collection_number := (lookupD d kCollectionNumber).getD []
        keywords := (lookupD d kKeywords).getD [] }
  else none

/-- Embeds `Stamp.to_dict` (`dataclasses.asdict`): all nine fields in declaration
order. -/
def to_dict (s : Stamp) : RecordDict :=
  [(kUniqueId, s.unique_id),
   (kName, s.name),
   (kCountry, s.country),
   (kImagePath, s.image_path),
   (kDates, s.dates),
   (kComments, s.comments),
   (kCatalogueIds, s.catalogue_ids),
   (kCollectionNumber, s.collection_number),
   (kKeywords, s.keywords)]

/-- Embeds `model.StampDatabase`'s mutable state: the record list, the bound file
path and the `_modified` (dirty) flag. -/
structure DB where
  stamps : List Stamp
  file_path : Option Str
  modified : Bool
deriving DecidableEq, Repr

/-- The outcome of the disk/JSON part of `StampDatabase.load`, passed in
explicitly: the file may be missing, unreadable (I/O error, malformed JSON,
or a top-level value without `.get`, all caught by the same handler), or a
parsed document whose `stamps` key holds a list of record objects (a missing
`stamps` key is `data.get('stamps', [])`, i.e. `doc []`). -/
inductive LoadInput where
  | missing
  | unreadable
  | doc (stampDicts : List RecordDict)

/-- Build the stamp list from the parsed record objects, as the list
comprehension `[Stamp.from_dict(d) for d in data.get('stamps', [])]` does:
`fresh i` is the UUID generated for the `i`-th record if it lacks a
`unique_id`; a failure anywhere fails the whole comprehension before any
assignment to the store happens. -/
def fromDicts (fresh : Nat → Str) (i : Nat) : List RecordDict → Option (List Stamp)
  | [] => some []
  | d :: rest =>
    match from_dict (fresh i) d with
    | none => none
    | some s =>
      match fromDicts fresh (i + 1) rest with
      | none => none
      | some ss => some (s :: ss)

/-- Embeds `StampDatabase.load`: a missing file initialises an empty clean store
bound to the path; an unreadable file or a failing record comprehension is
caught and returns failure with the state untouched (the comprehension is
fully evaluated before `self.stamps` is assigned); otherwise the new list,
path and clean flag are installed. -/
def load (db : DB) (path : Str) (inp : LoadInput) (fresh : Nat → Str) : DB × Bool :=
  match inp with
  | .missing => ({ stamps := [], file_path := some path, modified := false }, true)
  | .unreadable => (db, false)
  | .doc ds =>
    match fromDicts fresh 0 ds with
    | none => (db, false)
    | some ss => ({ stamps := ss, file_path := some path, modified := false }, true)

/-- The JSON document `StampDatabase.save` writes: the record list serialised
by `to_dict` (the metadata block is ignored by `load` and irrelevant here). -/
def writtenDoc (db : DB) : List RecordDict := db.stamps.map to_dict

/-- Python `a or b` for an optional string `a`: `None` and `""` are falsy. -/
def pyOrStr (a b : Option Str) : Option Str :=
  match a with
  | some s => if s = [] then b else some s
  | none => b

/-- Embeds `StampDatabase.save`: `save_path = file_path or self.file_path`; a falsy
path returns failure untouched; otherwise the document is written (`ioOk`
says whether the write raised), and on success the store binds to the path
and clears the dirty flag.  The third component is the document written in
full, if any. -/
def save (db : DB) (fp : Option Str) (ioOk : Bool) : DB × Bool × Option (List RecordDict) :=
  match pyOrStr fp db.file_path with
  | none => (db, false, none)
  | some p =>
    if p = [] then (db, false, none)
    else if ioOk then
      ({ db with file_path := some p, modified := false }, true, some (writtenDoc db))
    else (db, false, none)

/-- Embeds `StampDatabase.add_stamp`: append and mark dirty. -/
def add_stamp (db : DB) (s : Stamp) : DB :=
  { db with stamps := db.stamps ++ [s], modified := true }

/-- The loop body of `StampDatabase.update_stamp`: find the first record
whose `unique_id` matches, replace it by `upd` carrying the original id. -/
def updateList (uid : Str) (upd : Stamp) : List Stamp → Option (List Stamp)
  | [] => none
  | s :: rest =>
    if s.unique_id = uid then some ({ upd with unique_id := uid } :: rest)
    else (updateList uid upd rest).map (s :: ·)

/-- Embeds `StampDatabase.update_stamp`: on a match, store the replacement (with the
original id forced onto it) and mark dirty; otherwise return failure with the
store untouched. -/
def update_stamp (db : DB) (uid : Str) (upd : Stamp) : DB × Bool :=
  match updateList uid upd db.stamps with
  | some l => ({ db with stamps := l, modified := true }, true)
  | none => (db, false)

/-- The loop body of `StampDatabase.delete_stamp`: remove the first record
whose `unique_id` matches. -/
def deleteList (uid : Str) : List Stamp → Option (List Stamp)
  | [] => none
  | s :: rest =>
    if s.unique_id = uid then some rest
    else (deleteList uid rest).map (s :: ·)

/-- Embeds `StampDatabase.delete_stamp`. -/
def delete_stamp (db : DB) (uid : Str) : DB × Bool :=
  match deleteList uid db.stamps with
  | some l => ({ db with stamps := l, modified := true }, true)
  | none => (db, false)

/-- Embeds `StampDatabase.get_stamp`: first record with the given id. -/
def get_stamp (db : DB) (uid : Str) : Option Stamp :=
  db.stamps.find? (fun s => s.unique_id = uid)

/-- Embeds `StampDatabase.get_all_stamps` as a value: `self.stamps.copy()` has the
same elements as the internal list (the aliasing content of the copy is
proved over the heap model below). -/
def get_all_stamps (db : DB) : List Stamp := db.stamps

/-- Embeds `StampDatabase.clear`: empty list, unbound path, clean flag. -/
def clear (_db : DB) : DB := { stamps := [], file_path := none, modified := false }

/-- Does `hay` start with `needle`? -/
def startsL (hay needle : Str) : Bool :=
  match hay, needle with
  | _, [] => true
  | [], _ :: _ => false
  | h :: hs, n :: ns => h = n && startsL hs ns

/-- Python `needle in hay` for strings: substring containment. -/
def containsSub (hay needle : Str) : Bool :=
  match hay with
  | [] => needle = []
  | _ :: t => startsL hay needle || containsSub t needle

/-- The searchable fields of a stamp, in the order `search_stamps` checks
them. -/
def searchableFields (s : Stamp) : List Str :=
  [s.name, s.country, s.dates, s.collection_number, s.catalogue_ids,
   s.keywords, s.comments]

/-- Embeds `StampDatabase.search_stamps`: an empty or whitespace-only query returns
a copy of every record; otherwise the query is lowered then stripped and a
record is kept (once) when any non-empty searchable field contains it
case-insensitively. -/
def search_stamps (db : DB) (q : Str) : List Stamp :=
  if q = [] ∨ pyStrip q = [] then db.stamps
  else
    let ql := pyStrip (pyLower q)
    db.stamps.filter (fun s =>
      (searchableFields s).any (fun f => f ≠ [] && containsSub (pyLower f) ql))

/-- The literal `"All Countries"` (the country filter's no-filter value). -/
def allCountriesLit : Str := ['A','l','l',' ','C','o','u','n','t','r','i','e','s']

/-- The literal `"All Decades"` (the decade filter's no-filter value). -/
def allDecadesLit : Str := ['A','l','l',' ','D','e','c','a','d','e','s']

/-- The literal `"Unknown"`. -/
def unknownLit : Str := ['U','n','k','n','o','w','n']

/-- The first step of `StampController.get_filtered_stamps`: a truthy
non-whitespace search text goes through `search_stamps`, otherwise all
records are taken. -/
def searchStage (db : DB) (t : Str) : List Stamp :=
  if t ≠ [] ∧ pyStrip t ≠ [] then search_stamps db t else get_all_stamps db

/-- The second step of `StampController.get_filtered_stamps`: any country
other than `"All Countries"` keeps exactly the records with that exact
country (the `is not None` guard is vacuous for string-valued fields). -/
def countryStage (l : List Stamp) (c : Str) : List Stamp :=
  if c ≠ allCountriesLit then l.filter (fun s => s.country = c) else l

/-- The third step of `StampController.get_filtered_stamps`: any decade
label other than `"All Decades"` is parsed by `parse_decade_string`; an
unparseable label keeps the records whose dates fail to parse, a numeric
one keeps the records whose parsed year falls in that decade. -/
def decadeStage (l : List Stamp) (d : Str) : List Stamp :=
  if d ≠ allDecadesLit then
    match parse_decade_string d with
    | none => l.filter (fun s => parse_date_field s.dates = none)
    | some fd =>
      l.filter (fun s =>
        match parse_date_field s.dates with
        | some y => ((get_decade_from_year y : Nat) : Int) = fd
        | none => false)
  else l

/-- Embeds `controller.StampController.get_filtered_stamps`, as a function of the
controller's three filter fields: the record list is reassigned by the text
search, then the country match, then the decade match, in that order. -/
def get_filtered_stamps (db : DB) (searchText country decade : Str) : List Stamp :=
  decadeStage (countryStage (searchStage db searchText) country) decade

/-!  A small heap model for the aliasing claim about `get_all_stamps`:
Python list objects live at addresses, `self.stamps.copy()` allocates a new
list object with the same contents, and mutating one object never changes
another. -/

/-- A heap of Python list objects holding stamps, with a bump allocator. -/
structure Mem where
  heap : Nat → List Stamp
  next : Nat

/-- Allocate a fresh list object with the given contents. -/
def alloc (m : Mem) (v : List Stamp) : Mem × Nat :=
  ({ heap := fun a => if a = m.next then v else m.heap a, next := m.next + 1 }, m.next)

/-- In-place mutation of the list object at address `a` (covers `append`,
`remove`, slice assignment, ...). -/
def writeRef (m : Mem) (a : Nat) (v : List Stamp) : Mem :=
  { m with heap := fun x => if x = a then v else m.heap x }

/-- Embeds `StampDatabase.get_all_stamps` over the heap model: `self.stamps.copy()`
allocates a new list object whose contents are those of the store's list at
`dbRef`, and returns its address. -/
def get_all_stampsH (m : Mem) (dbRef : Nat) : Mem × Nat :=
  alloc m (m.heap dbRef)

/-! Helpers for reasoning about four-digit year strings. -/

/-- The ASCII character of a decimal digit. -/
def digitCh (d : Nat) : Char := Char.ofNat (48 + d)

/-- The four-character decimal rendering of a number below 10000. -/
def natToDigits4 (n : Nat) : Str :=
  [digitCh (n / 1000), digitCh (n / 100 % 10), digitCh (n / 10 % 10), digitCh (n % 10)]

/-! The six-record fixture of the filtering tests
(`tests/test_filtering.py::sample_stamps_with_dates`). -/

/-- Fixture record s1: USA, dates "1840". -/
def fixS1 : Stamp :=
  { unique_id := ['s','1'], name := ['S','t','a','m','p','1'],
    country := ['U','S','A'], dates := ['1','8','4','0'] }

/-- Fixture record s2: UK, dates "1845". -/
def fixS2 : Stamp :=
  { unique_id := ['s','2'], name := ['S','t','a','m','p','2'],
    country := ['U','K'], dates := ['1','8','4','5'] }

/-- Fixture record s3: USA, dates "1850-1860". -/
def fixS3 : Stamp :=
  { unique_id := ['s','3'], name := ['S','t','a','m','p','3'],
    country := ['U','S','A'], dates := ['1','8','5','0','-','1','8','6','0'] }

/-- Fixture record s4: Canada, dates "1860". -/
def fixS4 : Stamp :=
  { unique_id := ['s','4'], name := ['S','t','a','m','p','4'],
    country := ['C','a','n','a','d','a'], dates := ['1','8','6','0'] }

/-- Fixture record s5: France, dates "unknown" (unparseable). -/
def fixS5 : Stamp :=
  { unique_id := ['s','5'], name := ['S','t','a','m','p','5'],
    country := ['F','r','a','n','c','e'], dates := ['u','n','k','n','o','w','n'] }

/-- Fixture record s6: Germany, dates "circa 1870". -/
def fixS6 : Stamp :=
  { unique_id := ['s','6'], name := ['S','t','a','m','p','6'],
    country := ['G','e','r','m','a','n','y'],
    dates := ['c','i','r','c','a',' ','1','8','7','0'] }

/-- The fixture store holding the six records in order. -/
def fixtureDB : DB := { stamps := [fixS1, fixS2, fixS3, fixS4, fixS5, fixS6],
                        file_path := none, modified := false }

/-- A one-object heap for exercising the copy semantics of
`get_all_stampsH`. -/
def memA : Mem := { heap := fun a => if a = 0 then [fixS1] else [], next := 1 }

theorem digitCh_isDigit : ∀ d : Nat, d < 10 → isDigitCh (digitCh d) = true := by decide

theorem digitCh_val : ∀ d : Nat, d < 10 → digitVal (digitCh d) = d := by decide

theorem digitCh_not_ws : ∀ d : Nat, d < 10 → isPyWS (digitCh d) = false := by decide

theorem digitCh_lower : ∀ d : Nat, d < 10 → toLowerCh (digitCh d) = digitCh d := by decide

theorem digitCh_ne_c : ∀ d : Nat, d < 10 → digitCh d ≠ 'c' := by decide

theorem take4_natToDigits4 (n : Nat) (hn : n ≤ 9999) (rest : Str) :
    take4Digits (natToDigits4 n ++ rest) = some (n, rest) := by
  have h1 : n / 1000 < 10 := by omega
  have h2 : n / 100 % 10 < 10 := by omega
  have h3 : n / 10 % 10 < 10 := by omega
  have h4 : n % 10 < 10 := by omega
  simp [natToDigits4, take4Digits, digitCh_isDigit _ h1, digitCh_isDigit _ h2,
    digitCh_isDigit _ h3, digitCh_isDigit _ h4, digitCh_val _ h1, digitCh_val _ h2,
    digitCh_val _ h3, digitCh_val _ h4]
  omega

theorem lstrip_of_no_ws (s : Str) (h : ∀ c ∈ s, isPyWS c = false) : lstrip s = s := by
  cases s with
  | nil => rfl
  | cons c t => simp [lstrip, List.dropWhile_cons, h c (by simp)]

theorem rstrip_of_no_ws (s : Str) (h : ∀ c ∈ s, isPyWS c = false) : rstrip s = s := by
  have hrev : s.reverse.dropWhile isPyWS = s.reverse := by
    have := lstrip_of_no_ws s.reverse (by intro c hc; exact h c (by simpa using hc))
    simpa [lstrip] using this
  simp [rstrip, hrev]

theorem pyStrip_of_no_ws (s : Str) (h : ∀ c ∈ s, isPyWS c = false) : pyStrip s = s := by
  rw [pyStrip, lstrip_of_no_ws s h, rstrip_of_no_ws s h]

theorem stripCirca_of_head (c0 : Char) (rest : Str) (h : toLowerCh c0 ≠ 'c') :
    stripCirca (c0 :: rest) = c0 :: rest := by
  have hc : toLowerCh 'c' = 'c' := by decide
  simp [stripCirca, ciStarts, hc, h]

theorem matchRangeDash_digits (a b : Nat) (ha : a ≤ 9999) (hb : b ≤ 9999) :
    matchRangeDash (natToDigits4 a ++ '-' :: natToDigits4 b) = some (a, b) := by
  have hb1 : b / 1000 < 10 := by omega
  have hdash : isPyWS '-' = false := by decide
  have h4b := take4_natToDigits4 b hb []
  rw [List.append_nil] at h4b
  simp only [matchRangeDash, take4_natToDigits4 a ha]
  simp [natToDigits4, List.dropWhile_cons, hdash, digitCh_not_ws _ hb1]
  simp [natToDigits4] at h4b
  rw [h4b]

theorem parse_date_field_dash (a b : Nat) (ha : a ≤ 9999) (hb : b ≤ 9999) :
    parse_date_field (natToDigits4 a ++ '-' :: natToDigits4 b) = some ((a + b) / 2) := by
  have h1 : a / 1000 < 10 := by omega
  have hnws : ∀ c ∈ natToDigits4 a ++ '-' :: natToDigits4 b, isPyWS c = false := by
    intro c hc
    have h2 : a / 100 % 10 < 10 := by omega
    have h3 : a / 10 % 10 < 10 := by omega
    have h4 : a % 10 < 10 := by omega
    have g1 : b / 1000 < 10 := by omega
    have g2 : b / 100 % 10 < 10 := by omega
    have g3 : b / 10 % 10 < 10 := by omega
    have g4 : b % 10 < 10 := by omega
    simp [natToDigits4] at hc
    rcases hc with h | h | h | h | h | h | h | h | h <;> subst h
    · exact digitCh_not_ws _ h1
    · exact digitCh_not_ws _ h2
    · exact digitCh_not_ws _ h3
    · exact digitCh_not_ws _ h4
    · decide
    · exact digitCh_not_ws _ g1
    · exact digitCh_not_ws _ g2
    · exact digitCh_not_ws _ g3
    · exact digitCh_not_ws _ g4
  have hstrip := pyStrip_of_no_ws _ hnws
  have hS : natToDigits4 a ++ '-' :: natToDigits4 b =
      digitCh (a / 1000) :: (digitCh (a / 100 % 10) :: digitCh (a / 10 % 10) ::
        digitCh (a % 10) :: '-' :: natToDigits4 b) := by
    simp [natToDigits4]
  have hcir : stripCirca (natToDigits4 a ++ '-' :: natToDigits4 b) =
      natToDigits4 a ++ '-' :: natToDigits4 b := by
    rw [hS]
    exact stripCirca_of_head _ _ (by rw [digitCh_lower _ h1]; exact digitCh_ne_c _ h1)
  have hne : natToDigits4 a ++ '-' :: natToDigits4 b ≠ [] := by simp [natToDigits4]
  simp [parse_date_field, hne, hstrip, hcir, matchRangeDash_digits a b ha hb]

/-- C1: `parse_date_field` strips its input, removes a leading
case-insensitive circa prefix, then tries the dash range, the "to" range and
the single bare four-digit year in order, a range yielding the truncating
average `(start + end) // 2`; in particular the five quoted evaluations
hold, and the dash range yields the truncating average for all pairs of
four-digit numbers. -/
theorem parse_date_field_spec :
    parse_date_field ['1','8','4','0','-','1','8','5','0'] = some 1845 ∧
    parse_date_field ['1','8','4','0',' ','t','o',' ','1','8','5','0'] = some 1845 ∧
    parse_date_field ['c','i','r','c','a',' ','1','8','4','0'] = some 1840 ∧
    parse_date_field ['n','o','t',' ','a',' ','d','a','t','e'] = none ∧
    get_decade_from_year 1845 = 1840 ∧
    ∀ a b : Nat, a ≤ 9999 → b ≤ 9999 →
      parse_date_field (natToDigits4 a ++ '-' :: natToDigits4 b) = some ((a + b) / 2) := by
  refine ⟨by decide, by decide, by decide, by decide, rfl, ?_⟩
  intro a b ha hb
  exact parse_date_field_dash a b ha hb

/-- Witness for C1 at `a = 1840`, `b = 1850`. -/
theorem parse_date_field_spec_witness :
    parse_date_field (natToDigits4 1840 ++ '-' :: natToDigits4 1850) = some 1845 := by
  simpa using parse_date_field_spec.2.2.2.2.2 1840 1850 (by norm_num) (by norm_num)

/-! Persistence: load failure atomicity (C2), unknown-key rejection (C9) and
the save/load round trip (C4). -/

/-- C2: whenever `load` signals failure — an unreadable or malformed file, or
any failure while constructing the records — the store's record list, bound
file path and dirty flag are exactly as before the call. -/
theorem load_failure_leaves_store_unchanged (db : DB) (path : Str) (inp : LoadInput)
    (fresh : Nat → Str) (h : (load db path inp fresh).2 = false) :
    (load db path inp fresh).1 = db := by
  cases inp with
  | missing => simp [load] at h
  | unreadable => rfl
  | doc ds =>
    simp only [load] at h ⊢
    cases hf : fromDicts fresh 0 ds with
    | none => simp [hf]
    | some ss => rw [hf] at h; simp at h

/-- Witness for C2: a failing load on a concrete store. -/
theorem load_failure_leaves_store_unchanged_witness :
    (load ⟨[], none, false⟩ ['p'] .unreadable (fun _ => [])).1 = ⟨[], none, false⟩ :=
  load_failure_leaves_store_unchanged ⟨[], none, false⟩ ['p'] .unreadable (fun _ => []) rfl

/-- If some record object in the document has a key that is not a field name,
the whole comprehension fails. -/
theorem fromDicts_of_bad_key (fresh : Nat → Str) (d : RecordDict)
    (hbad : ¬ ∀ kv ∈ d, kv.1 ∈ fieldNames) :
    ∀ (pre : List RecordDict) (i : Nat) (post : List RecordDict),
      fromDicts fresh i (pre ++ d :: post) = none := by
  intro pre
  induction pre with
  | nil =>
    intro i post
    have hfd : from_dict (fresh i) d = none := by rw [from_dict, if_neg hbad]
    simp [fromDicts, hfd]
  | cons p ps ih =>
    intro i post
    cases hp : from_dict (fresh i) p with
    | none => simp [fromDicts, hp]
    | some s => simp [fromDicts, hp, ih (i + 1) post]

/-- C9: a persisted record object may omit any of the nine fields and still
load (defaults apply), but one unknown key anywhere in the document makes
the whole load fail with the store unchanged. -/
theorem load_rejects_unknown_keys :
    (∀ (fid : Str) (d : RecordDict), (∀ kv ∈ d, kv.1 ∈ fieldNames) →
      ∃ s : Stamp, from_dict fid d = some s) ∧
    (∀ (db : DB) (path : Str) (fresh : Nat → Str) (pre post : List RecordDict)
      (d : RecordDict) (kv : Str × Str), kv ∈ d → kv.1 ∉ fieldNames →
      load db path (.doc (pre ++ d :: post)) fresh = (db, false)) := by
  constructor
  · intro fid d h
    exact ⟨_, by rw [from_dict, if_pos h]⟩
  · intro db path fresh pre post d kv hkv hbad
    have hnall : ¬ ∀ kv ∈ d, kv.1 ∈ fieldNames := fun h => hbad (h kv hkv)
    simp [load, fromDicts_of_bad_key fresh d hnall pre 0 post]

/-- Witness for C9: the empty record object loads with all defaults, and a
record object with the unknown key `"z"` fails the whole load. -/
theorem load_rejects_unknown_keys_witness :
    (∃ s : Stamp, from_dict ['u'] [] = some s) ∧
    load ⟨[], none, false⟩ ['p'] (.doc [[(['z'], [])]]) (fun _ => []) =
      (⟨[], none, false⟩, false) :=
  ⟨load_rejects_unknown_keys.1 ['u'] [] (by simp),
   load_rejects_unknown_keys.2 ⟨[], none, false⟩ ['p'] (fun _ => []) [] [] [(['z'], [])]
     (['z'], []) (by simp) (by decide)⟩

/-- Deserialising a serialised stamp gives back the stamp, whatever fresh id
is on offer. -/
theorem from_dict_to_dict (fid : Str) (s : Stamp) : from_dict fid (to_dict s) = some s := rfl

/-- The comprehension over a serialised record list gives back the list. -/
theorem fromDicts_map_to_dict (fresh : Nat → Str) (l : List Stamp) :
    ∀ i, fromDicts fresh i (l.map to_dict) = some l := by
  induction l with
  | nil => intro i; rfl
  | cons s t ih => intro i; simp [fromDicts, from_dict_to_dict, ih (i + 1)]

/-- Lemma: `save` either fails leaving the state untouched, or succeeds binding the
resolved non-empty path and writing the serialised record list. -/
theorem save_cases (db : DB) (fp : Option Str) (ioOk : Bool) :
    save db fp ioOk = (db, false, none) ∨
    ∃ p, pyOrStr fp db.file_path = some p ∧ p ≠ [] ∧ ioOk = true ∧
      save db fp ioOk =
        ({ db with file_path := some p, modified := false }, true, some (writtenDoc db)) := by
  unfold save
  cases pyOrStr fp db.file_path with
  | none => left; rfl
  | some q =>
    by_cases hq : q = []
    · left; simp [hq]
    · cases ioOk with
      | false => left; simp [hq]
      | true => right; exact ⟨q, rfl, hq, rfl, by simp [hq]⟩

/-- C4: loading the document a successful save wrote reproduces the record
list exactly (keywords that were never set round-trip as `""`), and a
persisted record object lacking the `keywords` key loads with `keywords`
defaulting to the empty string. -/
theorem save_load_round_trip :
    (∀ (db db2 : DB) (fp : Option Str) (p : Str) (fresh : Nat → Str)
      (doc : List RecordDict), (save db fp true).2.2 = some doc →
      load db2 p (.doc doc) fresh =
        ({ stamps := db.stamps, file_path := some p, modified := false }, true)) ∧
    (∀ (fid : Str) (d : RecordDict), (∀ kv ∈ d, kv.1 ∈ fieldNames) →
      lookupD d kKeywords = none →
      ∃ s : Stamp, from_dict fid d = some s ∧ s.keywords = []) := by
  constructor
  · intro db db2 fp p fresh doc hsave
    have hdoc : doc = writtenDoc db := by
      rcases save_cases db fp true with hc | ⟨p, _, _, _, hc⟩
      · rw [hc] at hsave; simp at hsave
      · rw [hc] at hsave; simpa using hsave.symm
    subst hdoc
    simp [load, writtenDoc, fromDicts_map_to_dict fresh db.stamps 0]
  · intro fid d hall hk
    rw [from_dict, if_pos hall]
    exact ⟨_, rfl, by simp [hk]⟩

/-- Witness for C4: a one-record store (with `keywords` never set) saved and
reloaded, and the empty record object defaulting `keywords` to `""`. -/
theorem save_load_round_trip_witness :
    load ⟨[], none, false⟩ ['p']
        (.doc (writtenDoc ⟨[{ unique_id := ['a'], name := ['x'] }], some ['q'], true⟩))
        (fun _ => []) =
      ({ stamps := [{ unique_id := ['a'], name := ['x'] }], file_path := some ['p'],
         modified := false }, true) ∧
    ∃ s : Stamp, from_dict ['u'] [] = some s ∧ s.keywords = [] :=
  ⟨save_load_round_trip.1 ⟨[{ unique_id := ['a'], name := ['x'] }], some ['q'], true⟩
      ⟨[], none, false⟩ none ['p'] (fun _ => []) _ rfl,
   save_load_round_trip.2 ['u'] [] (by simp) rfl⟩

/-! Update semantics (C3) and the dirty-flag transition table (C7). -/

theorem updateList_none_iff (uid : Str) (upd : Stamp) (l : List Stamp) :
    updateList uid upd l = none ↔ ∀ s ∈ l, s.unique_id ≠ uid := by
  induction l with
  | nil => simp [updateList]
  | cons s t ih =>
    by_cases h : s.unique_id = uid
    · simp [updateList, h]
    · simp [updateList, h, ih]

theorem updateList_some (uid : Str) (upd : Stamp) (l : List Stamp) (l2 : List Stamp)
    (h : updateList uid upd l = some l2) :
    ∃ i, ∃ hi : i < l.length, (l.get ⟨i, hi⟩).unique_id = uid ∧
      l2 = l.set i { upd with unique_id := uid } := by
  induction l generalizing l2 with
  | nil => simp [updateList] at h
  | cons s t ih =>
    by_cases hs : s.unique_id = uid
    · rw [updateList, if_pos hs] at h
      refine ⟨0, by simp, by simpa using hs, ?_⟩
      rw [← Option.some_inj.mp h]
      simp
    · rw [updateList, if_neg hs] at h
      cases ht : updateList uid upd t with
      | none => rw [ht] at h; simp at h
      | some t2 =>
        rw [ht] at h
        have h2 : s :: t2 = l2 := by simpa using h
        obtain ⟨i, hi, hmatch, hset⟩ := ih t2 ht
        exact ⟨i + 1, by simpa using hi, by simpa using hmatch,
          by simp [← h2, hset, List.set]⟩

/-- C3: a matching id replaces that record — the stored replacement carrying
the original id whatever id the new record held — returns success and sets
the dirty flag; a non-matching id returns failure and leaves the store
unmodified (record list, path and flag). -/
theorem update_stamp_spec (db : DB) (uid : Str) (upd : Stamp) :
    ((update_stamp db uid upd).2 = true →
      (update_stamp db uid upd).1.modified = true ∧
      (update_stamp db uid upd).1.file_path = db.file_path ∧
      ∃ i, ∃ hi : i < db.stamps.length, (db.stamps.get ⟨i, hi⟩).unique_id = uid ∧
        (update_stamp db uid upd).1.stamps =
          db.stamps.set i { upd with unique_id := uid }) ∧
    ((update_stamp db uid upd).2 = false →
      (update_stamp db uid upd).1 = db ∧ ∀ s ∈ db.stamps, s.unique_id ≠ uid) ∧
    ((∃ s ∈ db.stamps, s.unique_id = uid) → (update_stamp db uid upd).2 = true) := by
  refine ⟨?_, ?_, ?_⟩
  · intro h
    cases hu : updateList uid upd db.stamps with
    | none => rw [update_stamp, hu] at h; simp at h
    | some l2 =>
      obtain ⟨i, hi, hmatch, hset⟩ := updateList_some uid upd db.stamps l2 hu
      rw [update_stamp, hu]
      exact ⟨rfl, rfl, i, hi, hmatch, by simpa using hset⟩
  · intro h
    cases hu : updateList uid upd db.stamps with
    | none => exact ⟨by rw [update_stamp, hu], (updateList_none_iff uid upd db.stamps).mp hu⟩
    | some l2 => rw [update_stamp, hu] at h; simp at h
  · intro h
    cases hu : updateList uid upd db.stamps with
    | none =>
      obtain ⟨s, hs, hid⟩ := h
      exact absurd hid ((updateList_none_iff uid upd db.stamps).mp hu s hs)
    | some l2 => rw [update_stamp, hu]

/-- Witness for C3: a successful update keeps the original id and sets the
flag; a missed update on the same store changes nothing. -/
theorem update_stamp_spec_witness :
    ((update_stamp ⟨[{ unique_id := ['a'] }], none, false⟩ ['a'] { unique_id := ['b'] }).1.modified
        = true) ∧
    ((update_stamp ⟨[{ unique_id := ['a'] }], none, false⟩ ['z'] { unique_id := ['b'] }).1 =
        ⟨[{ unique_id := ['a'] }], none, false⟩) ∧
    (update_stamp ⟨[{ unique_id := ['a'] }], none, false⟩ ['a'] { unique_id := ['b'] }).2 = true :=
  ⟨((update_stamp_spec ⟨[{ unique_id := ['a'] }], none, false⟩ ['a'] { unique_id := ['b'] }).1
      (by decide)).1,
   ((update_stamp_spec ⟨[{ unique_id := ['a'] }], none, false⟩ ['z'] { unique_id := ['b'] }).2.1
      (by decide)).1,
   (update_stamp_spec ⟨[{ unique_id := ['a'] }], none, false⟩ ['a'] { unique_id := ['b'] }).2.2
      ⟨{ unique_id := ['a'] }, by simp, rfl⟩⟩

/-- C7: the dirty flag becomes true after any add, after a successful update
and after a successful delete; it becomes false after a successful load,
after a successful save and after clear; a failed update, delete, load or
save leaves it unchanged (queries take no state and so change nothing). -/
theorem dirty_flag_spec (db : DB) (s : Stamp) (uid : Str) (upd : Stamp) (path : Str)
    (inp : LoadInput) (fresh : Nat → Str) (fp : Option Str) (ioOk : Bool) :
    (add_stamp db s).modified = true ∧
    ((update_stamp db uid upd).2 = true → (update_stamp db uid upd).1.modified = true) ∧
    ((update_stamp db uid upd).2 = false → (update_stamp db uid upd).1.modified = db.modified) ∧
    ((delete_stamp db uid).2 = true → (delete_stamp db uid).1.modified = true) ∧
    ((delete_stamp db uid).2 = false → (delete_stamp db uid).1.modified = db.modified) ∧
    ((load db path inp fresh).2 = true → (load db path inp fresh).1.modified = false) ∧
    ((load db path inp fresh).2 = false → (load db path inp fresh).1.modified = db.modified) ∧
    ((save db fp ioOk).2.1 = true → (save db fp ioOk).1.modified = false) ∧
    ((save db fp ioOk).2.1 = false → (save db fp ioOk).1.modified = db.modified) ∧
    (clear db).modified = false := by
  refine ⟨rfl, ?_, ?_, ?_, ?_, ?_, ?_, ?_, ?_, rfl⟩
  · intro h
    cases hu : updateList uid upd db.stamps with
    | none => rw [update_stamp, hu] at h; simp at h
    | some l2 => rw [update_stamp, hu]
  · intro h
    cases hu : updateList uid upd db.stamps with
    | none => rw [update_stamp, hu]
    | some l2 => rw [update_stamp, hu] at h; simp at h
  · intro h
    cases hu : deleteList uid db.stamps with
    | none => rw [delete_stamp, hu] at h; simp at h
    | some l2 => rw [delete_stamp, hu]
  · intro h
    cases hu : deleteList uid db.stamps with
    | none => rw [delete_stamp, hu]
    | some l2 => rw [delete_stamp, hu] at h; simp at h
  · intro h
    cases inp with
    | missing => rfl
    | unreadable => simp [load] at h
    | doc ds =>
      simp only [load] at h ⊢
      cases hf : fromDicts fresh 0 ds with
      | none => rw [hf] at h; simp at h
      | some ss => simp [hf]
  · intro h
    cases inp with
    | missing => simp [load] at h
    | unreadable => rfl
    | doc ds =>
      simp only [load] at h ⊢
      cases hf : fromDicts fresh 0 ds with
      | none => simp [hf]
      | some ss => rw [hf] at h; simp at h
  · intro h
    rcases save_cases db fp ioOk with hc | ⟨p, _, _, _, hc⟩
    · rw [hc] at h; simp at h
    · rw [hc]
  · intro h
    rcases save_cases db fp ioOk with hc | ⟨p, _, _, _, hc⟩
    · rw [hc]
    · rw [hc] at h; simp at h

/-- Witness for C7: every transition exercised on concrete stores. -/
theorem dirty_flag_spec_witness :
    ((update_stamp ⟨[{ unique_id := ['a'] }], none, true⟩ ['a'] {}).1.modified = true) ∧
    ((update_stamp ⟨[{ unique_id := ['a'] }], none, true⟩ ['z'] {}).1.modified = true) ∧
    ((delete_stamp ⟨[{ unique_id := ['a'] }], none, true⟩ ['a']).1.modified = true) ∧
    ((delete_stamp ⟨[{ unique_id := ['a'] }], none, true⟩ ['z']).1.modified = true) ∧
    ((load ⟨[], none, true⟩ ['p'] .missing (fun _ => [])).1.modified = false) ∧
    ((load ⟨[], none, true⟩ ['p'] .unreadable (fun _ => [])).1.modified = true) ∧
    ((save ⟨[], some ['q'], true⟩ none true).1.modified = false) ∧
    ((save ⟨[], none, true⟩ none true).1.modified = true) :=
  ⟨(dirty_flag_spec ⟨[{ unique_id := ['a'] }], none, true⟩ {} ['a'] {} ['p'] .missing
      (fun _ => []) none true).2.1 (by decide),
   (dirty_flag_spec ⟨[{ unique_id := ['a'] }], none, true⟩ {} ['z'] {} ['p'] .missing
      (fun _ => []) none true).2.2.1 (by decide),
   (dirty_flag_spec ⟨[{ unique_id := ['a'] }], none, true⟩ {} ['a'] {} ['p'] .missing
      (fun _ => []) none true).2.2.2.1 (by decide),
   (dirty_flag_spec ⟨[{ unique_id := ['a'] }], none, true⟩ {} ['z'] {} ['p'] .missing
      (fun _ => []) none true).2.2.2.2.1 (by decide),
   (dirty_flag_spec ⟨[], none, true⟩ {} ['a'] {} ['p'] .missing
      (fun _ => []) none true).2.2.2.2.2.1 rfl,
   (dirty_flag_spec ⟨[], none, true⟩ {} ['a'] {} ['p'] .unreadable
      (fun _ => []) none true).2.2.2.2.2.2.1 rfl,
   (dirty_flag_spec ⟨[], some ['q'], true⟩ {} ['a'] {} ['p'] .missing
      (fun _ => []) none true).2.2.2.2.2.2.2.1 rfl,
   (dirty_flag_spec ⟨[], none, true⟩ {} ['a'] {} ['p'] .missing
      (fun _ => []) none true).2.2.2.2.2.2.2.2.1 rfl⟩

/-! Case-insensitive search (C5). -/

theorem toNat_ofNat_small (n : Nat) (h : n < 55296) : (Char.ofNat n).toNat = n := by
  have hv : Nat.isValidChar n := Or.inl h
  simp only [Char.ofNat, hv, dif_pos]
  simp [Char.ofNatAux, Char.toNat, UInt32.toNat]

/-- No character with code point at least 33 is ASCII whitespace. -/
theorem isPyWS_false_of_toNat (c : Char) (h1 : 33 ≤ c.toNat) : isPyWS c = false := by
  have hne : ∀ d : Char, d.toNat < 33 → ¬c = d := by
    intro d hd he
    rw [he] at h1
    omega
  simp only [isPyWS]
  simp [hne ' ' (by decide), hne '\t' (by decide), hne '\n' (by decide),
    hne '\r' (by decide), hne '\x0b' (by decide), hne '\x0c' (by decide)]

/-- ASCII lowering never changes whether a character is whitespace. -/
theorem isPyWS_toLowerCh (c : Char) : isPyWS (toLowerCh c) = isPyWS c := by
  unfold toLowerCh
  split
  · rename_i h
    have h1 : (Char.ofNat (c.toNat + 32)).toNat = c.toNat + 32 :=
      toNat_ofNat_small _ (by omega)
    rw [isPyWS_false_of_toNat _ (by rw [h1]; omega), isPyWS_false_of_toNat _ (by omega)]
  · rfl

/-- A string strips to empty exactly when it is all whitespace. -/
theorem pyStrip_eq_nil_iff (s : Str) : pyStrip s = [] ↔ ∀ c ∈ s, isPyWS c = true := by
  unfold pyStrip rstrip lstrip
  rw [List.reverse_eq_nil_iff, List.dropWhile_eq_nil_iff]
  constructor
  · intro h c hc
    rw [← List.takeWhile_append_dropWhile (p := isPyWS) (l := s)] at hc
    rcases List.mem_append.mp hc with h1 | h2
    · exact List.mem_takeWhile_imp h1
    · exact h c (by simpa using h2)
  · intro h c hc
    exact h c (List.Sublist.subset (List.dropWhile_sublist isPyWS) (by simpa using hc))

/-- Lowering a string does not change whether it strips to empty. -/
theorem pyStrip_pyLower_eq_nil (q : Str) : pyStrip (pyLower q) = [] ↔ pyStrip q = [] := by
  rw [pyStrip_eq_nil_iff, pyStrip_eq_nil_iff]
  constructor
  · intro h c hc
    rw [← isPyWS_toLowerCh]
    exact h _ (List.mem_map_of_mem _ hc)
  · intro h c hc
    obtain ⟨d, hd, rfl⟩ := List.mem_map.mp hc
    rw [isPyWS_toLowerCh]
    exact h d hd

/-- C5: two queries with the same lowering — in particular two queries
differing only in letter case, such as `"PENNY"` and `"penny"` — give
identical search results, and an empty or whitespace-only query returns
every record with no filtering. -/
theorem search_stamps_spec (db : DB) (q1 q2 q : Str)
    (h : pyLower q1 = pyLower q2) (hq : pyStrip q = []) :
    search_stamps db q1 = search_stamps db q2 ∧ search_stamps db q = db.stamps := by
  constructor
  · by_cases h1 : q1 = [] ∨ pyStrip q1 = []
    · have h2 : q2 = [] ∨ pyStrip q2 = [] := by
        rcases h1 with h1 | h1
        · left
          have : pyLower q2 = [] := by rw [← h, h1]; rfl
          simpa [pyLower] using this
        · right
          rw [← pyStrip_pyLower_eq_nil, ← h, pyStrip_pyLower_eq_nil]
          exact h1
      simp [search_stamps, h1, h2]
    · have h2 : ¬(q2 = [] ∨ pyStrip q2 = []) := by
        intro h2
        apply h1
        rcases h2 with h2 | h2
        · left
          have : pyLower q1 = [] := by rw [h, h2]; rfl
          simpa [pyLower] using this
        · right
          rw [← pyStrip_pyLower_eq_nil, h, pyStrip_pyLower_eq_nil]
          exact h2
      simp only [search_stamps, if_neg h1, if_neg h2, h]
  · simp [search_stamps, hq]

/-- Witness for C5: `"PENNY"` and `"penny"` agree on the fixture store and a
whitespace query returns everything. -/
theorem search_stamps_spec_witness :
    search_stamps fixtureDB ['P','E','N','N','Y'] =
      search_stamps fixtureDB ['p','e','n','n','y'] ∧
    search_stamps fixtureDB [' '] = fixtureDB.stamps :=
  search_stamps_spec fixtureDB ['P','E','N','N','Y'] ['p','e','n','n','y'] [' ']
    (by decide) (by decide)

/-! The combined filter (C6) and unparseable decade labels (C10). -/

theorem decadeStage_sublist (l : List Stamp) (d : Str) : (decadeStage l d).Sublist l := by
  unfold decadeStage
  by_cases hd : d ≠ allDecadesLit
  · rw [if_pos hd]
    cases parse_decade_string d with
    | none => exact List.filter_sublist _
    | some fd => exact List.filter_sublist _
  · rw [if_neg hd]

theorem countryStage_sublist (l : List Stamp) (c : Str) : (countryStage l c).Sublist l := by
  unfold countryStage
  by_cases hc : c ≠ allCountriesLit
  · rw [if_pos hc]
    exact List.filter_sublist _
  · rw [if_neg hc]

/-- C6: over the six-record fixture, country `"USA"` with decade `"1840s"`
yields exactly the record with dates `"1840"`; the decade filter
`"Unknown"` selects exactly the records whose dates fail to parse; and the
three filter stages each narrow the previous stage's result. -/
theorem get_filtered_stamps_spec :
    get_filtered_stamps fixtureDB [] ['U','S','A'] ['1','8','4','0','s'] = [fixS1] ∧
    get_filtered_stamps fixtureDB [] allCountriesLit unknownLit = [fixS5] ∧
    (∀ db : DB, get_filtered_stamps db [] allCountriesLit unknownLit =
      db.stamps.filter (fun s => parse_date_field s.dates = none)) ∧
    (∀ (db : DB) (t c d : Str),
      (get_filtered_stamps db t c d).Sublist (get_filtered_stamps db t c allDecadesLit) ∧
      (get_filtered_stamps db t c allDecadesLit).Sublist
        (get_filtered_stamps db t allCountriesLit allDecadesLit)) := by
  refine ⟨by decide, by decide, ?_, ?_⟩
  · intro db
    simp [get_filtered_stamps, searchStage, get_all_stamps, countryStage, decadeStage,
      (by decide : unknownLit ≠ allDecadesLit),
      (show parse_decade_string unknownLit = none from rfl)]
  · intro db t c d
    have hAD : get_filtered_stamps db t c allDecadesLit =
        countryStage (searchStage db t) c := by
      simp [get_filtered_stamps, decadeStage]
    have hAC : get_filtered_stamps db t allCountriesLit allDecadesLit =
        searchStage db t := by
      simp [get_filtered_stamps, decadeStage, countryStage]
    refine ⟨?_, ?_⟩
    · rw [hAD]; exact decadeStage_sublist _ _
    · rw [hAD, hAC]; exact countryStage_sublist _ _

/-- C10: any decade label other than `"All Decades"` that
`parse_decade_string` cannot parse filters exactly like the `"Unknown"`
label: it keeps precisely the records whose dates fail to parse. -/
theorem unparseable_decade_label_spec (db : DB) (t c d : Str)
    (h1 : d ≠ allDecadesLit) (h2 : parse_decade_string d = none) :
    get_filtered_stamps db t c d = get_filtered_stamps db t c unknownLit := by
  unfold get_filtered_stamps decadeStage
  rw [if_pos h1, if_pos (show unknownLit ≠ allDecadesLit from by decide), h2,
    show parse_decade_string unknownLit = none from rfl]

/-- Witness for C10: the label `"garbage"` behaves like `"Unknown"` on the
fixture. -/
theorem unparseable_decade_label_spec_witness :
    get_filtered_stamps fixtureDB [] allCountriesLit ['g','a','r','b','a','g','e'] =
      get_filtered_stamps fixtureDB [] allCountriesLit unknownLit :=
  unparseable_decade_label_spec fixtureDB [] allCountriesLit
    ['g','a','r','b','a','g','e'] (by decide) (by decide)

/-! The defensive copy returned by `get_all_stamps` (C8), over the heap
model. -/

/-- C8: on a store with a non-empty record list, `get_all_stamps` returns a
fresh copy: its contents equal the store's list, any in-place mutation of
the returned object leaves the store's list object unchanged, and a
subsequent `get_all_stamps` still returns the original contents. -/
theorem get_all_stamps_copy_spec (m : Mem) (dbRef : Nat) (f : List Stamp → List Stamp)
    (hv : dbRef < m.next) (_hne : m.heap dbRef ≠ []) :
    (get_all_stampsH m dbRef).1.heap (get_all_stampsH m dbRef).2 = m.heap dbRef ∧
    (writeRef (get_all_stampsH m dbRef).1 (get_all_stampsH m dbRef).2
        (f (m.heap dbRef))).heap dbRef = m.heap dbRef ∧
    (get_all_stampsH (writeRef (get_all_stampsH m dbRef).1 (get_all_stampsH m dbRef).2
          (f (m.heap dbRef))) dbRef).1.heap
        (get_all_stampsH (writeRef (get_all_stampsH m dbRef).1 (get_all_stampsH m dbRef).2
          (f (m.heap dbRef))) dbRef).2 = m.heap dbRef := by
  have hne1 : dbRef ≠ m.next := Nat.ne_of_lt hv
  refine ⟨by simp [get_all_stampsH, alloc], ?_, ?_⟩
  · simp [get_all_stampsH, alloc, writeRef, hne1]
  · simp [get_all_stampsH, alloc, writeRef, hne1]

/-- Witness for C8: clearing the copied list leaves the store's object
untouched on a concrete one-object heap. -/
theorem get_all_stamps_copy_spec_witness :
    (writeRef (get_all_stampsH memA 0).1 (get_all_stampsH memA 0).2
        ((fun _ => ([] : List Stamp)) (memA.heap 0))).heap 0 = memA.heap 0 :=
  (get_all_stamps_copy_spec memA 0 (fun _ => []) (by decide) (by decide)).2.1

end ScolCat
